import Mathlib

/-!
Verification model of the codecrafters-redis-rust core: the command parser
(src/command/core.rs) and the server-context executor (src/server/context.rs),
shallowly embedded in Lean.  Panics of the Rust code are modelled by `none`
in `Option`-valued translations.  Collaborators that live outside the two
source files (wire codec, store engines, response constructors, connection
dispatcher) are modelled from the specification and are marked
`Modelled from the spec:` in their doc comments.
-/

namespace Redis

/-- Wire datum (RESP).  Modelled from the spec: §4.1 lists five datum kinds
recognised by prefix byte (`+` simple string, `-` error, `:` integer,
`$` bulk string with `-1` encoding null, `*` array with `-1` encoding a
null array). -/
inductive Data where
  | SStr : String → Data
  | EStr : String → Data
  | IntD : Int → Data
  | BStr : String → Data
  | Arr : List Data → Data
  | Null : Data
  | NullArr : Data
deriving Repr

/-- CRLF terminator of RESP frames. -/
def crlf : String := "\r\n"

mutual
/-- Modelled from the spec: RESP encoding of a datum (§4.1); `RedisArray(...).into()`
in the source produces exactly this canonical textual form. -/
def encodeData : Data → String
  | Data.SStr s => "+" ++ s ++ crlf
  | Data.EStr s => "-" ++ s ++ crlf
  | Data.IntD i => ":" ++ toString i ++ crlf
  | Data.BStr s => "$" ++ toString s.length ++ crlf ++ s ++ crlf
  | Data.Arr ds => "*" ++ toString ds.length ++ crlf ++ encodeList ds
  | Data.Null => "$-1" ++ crlf
  | Data.NullArr => "*-1" ++ crlf

/-- RESP encoding of a sequence of datums, concatenated in order. -/
def encodeList : List Data → String
  | [] => ""
  | d :: ds => encodeData d ++ encodeList ds
end

/-- `get_raw_array_command` (core.rs line 337): the canonical bulk-string-array
wire form of the decoded argument slice, attached to write commands. -/
def get_raw_array_command (val : List Data) : String :=
  encodeData (Data.Arr val)

/-! ### Numeric string parsing

The Rust code calls `str::parse::<usize/u64/i64/isize/f64>` (panicking via
`.unwrap()` at guarded sites) and `Decimal::from_str_exact` (defaulted via
`.unwrap_or_default()`).  These are translated here on `List Char`, with
`none` modelling a parse error (hence a panic at an `.unwrap()` site).
Machine-width bounds are kept explicit. -/

/-- Numeric value of a digit string, most significant digit first. -/
def digitsVal (l : List Char) : Nat :=
  l.foldl (fun a c => a * 10 + (c.toNat - 48)) 0

/-- All characters are ASCII digits. -/
def allDigits (l : List Char) : Bool :=
  l.all Char.isDigit

/-- Digit-string parser: nonempty, digits only. -/
def parseNatList (l : List Char) : Option Nat :=
  if l.isEmpty then none
  else if allDigits l then some (digitsVal l) else none

/-- `str::parse::<u64>` / `::<usize>` on a 64-bit platform (sign forms are
unreachable at all call sites, which guard with `is_number`). -/
def parseU64 (s : String) : Option Nat :=
  match parseNatList s.data with
  | some n => if n < 2 ^ 64 then some n else none
  | none => none

/-- `str::parse::<i64>` (also used for `isize` on a 64-bit platform). -/
def parseI64 (s : String) : Option Int :=
  match s.data with
  | '-' :: rest =>
    match parseNatList rest with
    | some n => if n ≤ 2 ^ 63 then some (-(n : Int)) else none
    | none => none
  | l =>
    match parseNatList l with
    | some n => if n < 2 ^ 63 then some (n : Int) else none
    | none => none

/-- The numerator and power-of-ten denominator a plain decimal literal
`digits[.digits]` denotes; `none` when no digit is present or a second
point appears (matching what `str::parse::<f64>` accepts within the
`is_number` character set — exponent and inf/nan forms need letters). -/
def parseDecimalPair (l : List Char) : Option (Nat × Nat) :=
  match l.span Char.isDigit with
  | (intPart, []) =>
    if intPart.isEmpty then none else some (digitsVal intPart, 1)
  | (intPart, '.' :: frac) =>
    if allDigits frac then
      if intPart.isEmpty && frac.isEmpty then none
      else some (digitsVal intPart * 10 ^ frac.length + digitsVal frac,
        10 ^ frac.length)
    else none
  | (_, _) => none

/-- Number of binary digits after consuming one unit of fuel per digit;
the fuel keeps the recursion structural, so terms evaluate definitionally. -/
def bitLenFuel : Nat → Nat → Nat
  | 0, _ => 0
  | fuel + 1, n => if n = 0 then 0 else bitLenFuel fuel (n / 2) + 1

/-- Number of binary digits of a natural (0 for 0); `n` itself is always
enough fuel. -/
def bitLen (n : Nat) : Nat :=
  bitLenFuel n n

/-- Round-half-to-even integer division. -/
def rndDiv (num d : Nat) : Nat :=
  let q := num / d
  let r := num % d
  if 2 * r < d then q
  else if d < 2 * r then q + 1
  else if q % 2 = 0 then q else q + 1

/-- A binary64 magnitude, mantissa times 2^exponent, held exactly. -/
structure FBits where
  m : Nat
  s : Int
deriving Repr, DecidableEq

/-- Round the positive rational `num / den` (`den > 0`) to the nearest IEEE
binary64 magnitude, round half to even, exactly: the exponent is chosen so
the mantissa lands in [2^52, 2^53) (clamped at the subnormal floor 2^-1074),
and an overflow past 2^1024 stands for infinity, whose u64 cast saturates
identically. -/
def roundPosF64 (num den : Nat) : FBits :=
  if num = 0 then ⟨0, 0⟩
  else
    let c : Int := (bitLen num : Int) - (bitLen den : Int)
    let e : Int :=
      if num * 2 ^ (-c).toNat < den * 2 ^ c.toNat then c - 1 else c
    let s : Int := max (e - 52) (-1074)
    let m : Nat :=
      if 0 ≤ s then rndDiv num (den * 2 ^ s.toNat)
      else rndDiv (num * 2 ^ (-s).toNat) den
    if 0 ≤ s ∧ 2 ^ 1024 ≤ m * 2 ^ s.toNat then ⟨1, 1024⟩ else ⟨m, s⟩

/-- A double: sign and magnitude. -/
structure F64 where
  neg : Bool
  bits : FBits
deriving Repr, DecidableEq

/-- `str::parse::<f64>` on the character set the `is_number` guard admits:
the correctly rounded binary64 value of the decimal literal, kept exactly
as sign and mantissa·2^exponent. -/
def parseF64Bits (str : String) : Option F64 :=
  match str.data with
  | '-' :: rest => (parseDecimalPair rest).map (fun p => ⟨true, roundPosF64 p.1 p.2⟩)
  | l => (parseDecimalPair l).map (fun p => ⟨false, roundPosF64 p.1 p.2⟩)

/-- IEEE multiplication of a double by the exactly representable constant
`1000f64`: the exact product, rounded once. -/
def f64Mul1000 (x : F64) : F64 :=
  ⟨x.neg,
    if 0 ≤ x.bits.s then roundPosF64 (x.bits.m * 1000 * 2 ^ x.bits.s.toNat) 1
    else roundPosF64 (x.bits.m * 1000) (2 ^ (-x.bits.s).toNat)⟩

/-- Rust `as u64` on a double: truncation toward zero with saturation —
negative values collapse to 0, values at or beyond 2^64 (infinity included)
to `u64::MAX`. -/
def f64BitsAsU64 (x : F64) : Nat :=
  if x.neg then 0
  else if 0 ≤ x.bits.s then min (2 ^ 64 - 1) (x.bits.m * 2 ^ x.bits.s.toNat)
  else min (2 ^ 64 - 1) (x.bits.m / 2 ^ (-x.bits.s).toNat)

/-- `str::parse::<f64>` abstracted to the exact rational the decimal
literal denotes (no binary rounding).  Used only where no verified claim
depends on the rounding: `Point::new` and the GEOSEARCH radius, whose geo
pipeline is already a spec-modelled surrogate (§4.3).  BLPOP's timeout uses
the exact IEEE model `parseF64Bits` above instead. -/
def parseF64 (s : String) : Option ℚ :=
  match s.data with
  | '-' :: rest => (parseDecimalPair rest).map (fun p => -((p.1 : ℚ) / (p.2 : ℚ)))
  | l => (parseDecimalPair l).map (fun p => (p.1 : ℚ) / (p.2 : ℚ))

/-- `rust_decimal::Decimal::from_str_exact`: an optionally signed plain
decimal string with at least one digit, at most 28 fractional digits and a
mantissa below `2^96`; anything else is a parse error. -/
def decimalFromStrExact (s : String) : Option ℚ :=
  let core : List Char → Option ℚ := fun l =>
    match l.span Char.isDigit with
    | (intPart, []) =>
      if intPart.isEmpty then none
      else if digitsVal intPart < 2 ^ 96 then some ((digitsVal intPart : ℚ)) else none
    | (intPart, '.' :: frac) =>
      if allDigits frac && !(intPart.isEmpty && frac.isEmpty)
          && frac.length ≤ 28 && digitsVal (intPart ++ frac) < 2 ^ 96 then
        some ((digitsVal intPart : ℚ) + (digitsVal frac : ℚ) / (10 ^ frac.length : ℚ))
      else none
    | (_, _) => none
  match s.data with
  | '-' :: rest => (core rest).map (fun q => -q)
  | '+' :: rest => core rest
  | l => core l

/-- `is_number` (core.rs line 294): every character is an ASCII digit, a
point or a minus sign. -/
def is_number (s : String) : Bool :=
  s.data.all (fun c => c.isDigit || c == '.' || c == '-')

/-- ASCII uppercasing, character by character.  `str::to_uppercase` agrees
with this on ASCII text, and every command word the parser recognizes is
ASCII; Unicode-specific case mappings (such as 'ſ' uppercasing to 'S') are
outside this model, so theorems that quantify over command words carry an
ASCII hypothesis. -/
def strUpper (s : String) : String :=
  String.mk (s.data.map Char.toUpper)

/-- `str::eq_ignore_ascii_case`, via ASCII uppercasing of both sides. -/
def eqIgnoreCase (a b : String) : Bool :=
  strUpper a == strUpper b

/-- Modelled from the spec: geographic point; `Point` lives in
src/store/coords.rs which is outside src/.  Coordinates are exact rationals
(the IEEE parsing/rounding of the source is abstracted). -/
structure Point where
  lat : ℚ
  long : ℚ
deriving Repr, DecidableEq

/-- Modelled from the spec: `Point::new(lat, long)` builds a point from the
two textual coordinates (defaulting unparsable text to 0). -/
def Point.new (latS longS : String) : Point :=
  ⟨(parseF64 latS).getD 0, (parseF64 longS).getD 0⟩

/-- Stored value kinds.  Modelled from the spec: §3 lists string, list,
stream and sorted-set kinds (geo sets are sorted sets whose score is a
geohash). -/
inductive Value where
  | Str : String → Value
  | ListV : List String → Value
  | StreamV : List ((Nat × Nat) × (String × String)) → Value
  | ZSet : List (String × ℚ) → Value
deriving Repr

/-- The `Command` variant (core.rs lines 9–109), field for field. -/
inductive Command where
  | Ping
  | Echo (s : String)
  | Get (key : String)
  | Set (key : String) (value : Value) (expiry : Option Nat) (raw_command : String)
  | ConfigGet (key : String)
  | Keys (pattern : String)
  | Info
  | Psync (replica_id offset : String)
  | Replconf
  | ReplconfGetAck (s : String)
  | ReplconfAck (n : Nat)
  | Wait (num_replicas : Int) (timeout : Nat)
  | TypeC (key : String)
  | XAdd (key id : String) (entry : String × String)
  | XRange (key start stop : String)
  | XRead (streams : List (String × String)) (block : Option Nat)
  | Incr (key raw_command : String)
  | Multi
  | Exec
  | Invalid
  | Discard
  | ListPush (key : String) (values : List String) (is_left : Bool) (raw_command : String)
  | LRange (key : String) (start stop : Int)
  | LLen (key : String)
  | LPop (key : String) (count : Nat)
  | BLPop (keys : List String) (timeout : Nat)
  | Transaction (cmds : List Command)
  | Subscribe (channel : String)
  | Publish (channel message : String)
  | ZAdd (key : String) (score : ℚ) (member : String)
  | ZRank (key member : String)
  | ZRange (key : String) (start stop : Int)
  | ZCard (key : String)
  | ZScore (key member : String)
  | ZRem (key member : String)
  | Geoadd (key : String) (point : Point) (member : String)
  | Geopos (key : String) (members : List String)
  | Geodist (key from_m to_m : String)
  | Geosearch (key : String) (point : Point) (radius : ℚ) (unit : String)
  | Acl (cmd : String) (args : List String)

/-- Modelled from the spec: `parse_string_args` (src/common.rs, outside
src/) keeps the bulk-string payloads of a datum slice, in order. -/
def parse_string_args (ds : List Data) : List String :=
  ds.filterMap (fun d => match d with | Data.BStr s => some s | _ => none)

/-- Modelled from the spec: `handlers::get_timestamp` (outside src/) turns a
relative `PX` millisecond count into an optional absolute expiry timestamp
(`expires_at`, §3), `none` on unparsable text. -/
def get_timestamp (now : Nat) (ms : String) : Option Nat :=
  (parseU64 ms).map (fun m => now + m)

/-- `parse_xread` (core.rs lines 299–319).  Faithful to the source including
its panics: `&val[1..=2]` panics when the array has fewer than 3 elements,
`&val[4..]` panics when BLOCK matched but nothing follows the millisecond
count, and the `.unwrap()` panics when `is_number` admits a string `parse::<u64>`
rejects.  The trailing arguments are split at the floor midpoint and zipped;
the zip truncates to the shorter side and no shape is ever rejected as
`Invalid` here. -/
def parse_xread (val : List Data) : Option Command :=
  if val.length < 3 then none
  else
    let mkRead : List Data → Option Nat → Command := fun tail block =>
      let mid := tail.length / 2
      let left := tail.take mid
      let right := tail.drop mid
      Command.XRead
        ((left.zip right).filterMap (fun p =>
          match p with
          | (Data.BStr stream, Data.BStr id) => some (stream, id)
          | _ => none)) block
    match val.drop 1 with
    | Data.BStr arg :: Data.BStr ms :: _ =>
      if eqIgnoreCase arg "BLOCK" && is_number ms then
        match parseU64 ms with
        | none => none
        | some b =>
          if 4 ≤ val.length then some (mkRead (val.drop 4) (some b)) else none
      else some (mkRead (val.drop 2) none)
    | _ => some (mkRead (val.drop 2) none)

/-- `parse_blpop` (core.rs lines 321–335), applied to the argument slice
`&val[1..]`.  Faithful to the source including its panics: the loop bound
`val.len() - 1` underflows on an empty slice, and the `.unwrap()` panics when
`is_number` admits a string `parse::<f64>` rejects.  The timeout (seconds,
possibly fractional) is parsed to a binary64, multiplied by `1000f64` with
IEEE rounding, and cast `as u64` — all three steps modelled exactly. -/
def parse_blpop (vs : List Data) : Option Command :=
  if vs.isEmpty then none
  else
    let keys := (vs.take (vs.length - 1)).filterMap
      (fun d => match d with | Data.BStr s => some s | _ => none)
    match vs.getLast? with
    | some (Data.BStr t) =>
      if is_number t then
        match parseF64Bits t with
        | none => none
        | some x => some (Command.BLPop keys (f64BitsAsU64 (f64Mul1000 x)))
      else some Command.Invalid
    | _ => some Command.Invalid

/-- Ordered list of the command words the parser's match recognises
(core.rs lines 125–281); any other first word falls to the catch-all. -/
def recognizedNames : List String :=
  ["PING", "ECHO", "GET", "SET", "CONFIG", "KEYS", "INFO", "PSYNC",
   "REPLCONF", "WAIT", "TYPE", "XADD", "XRANGE", "XREAD", "INCR", "MULTI",
   "EXEC", "DISCARD", "RPUSH", "LPUSH", "LRANGE", "LLEN", "LPOP", "BLPOP",
   "SUBSCRIBE", "PUBLISH", "ZADD", "ZRANK", "ZRANGE", "ZCARD", "ZSCORE",
   "ZREM", "GEOADD", "GEOPOS", "GEODIST", "GEOSEARCH", "ACL"]

/-- The arm group for one command word: the Rust match tests arms top to
bottom, and arms sharing a word are consecutive, so dispatch by word then by
argument shape is the same function.  `rest` is `&val[1..]`, `val` the whole
slice (needed for `get_raw_array_command(val)` and the XREAD/BLPOP helpers);
`none` models a panic of the source. -/
def commandDispatch (now : Nat) (name : String) (rest val : List Data) : Option Command :=
  if name = "PING" then
    match rest with
    | [] => some Command.Ping
    | _ => some Command.Invalid
  else if name = "ECHO" then
    match rest with
    | [Data.BStr value] => some (Command.Echo value)
    | _ => some Command.Invalid
  else if name = "GET" then
    match rest with
    | [Data.BStr key] => some (Command.Get key)
    | _ => some Command.Invalid
  else if name = "SET" then
    match rest with
    | [Data.BStr key, Data.BStr value, Data.BStr param, Data.BStr expiry_ms] =>
      if eqIgnoreCase param "PX" then
        some (Command.Set key (Value.Str value) (get_timestamp now expiry_ms)
          (get_raw_array_command val))
      else some Command.Invalid
    | [Data.BStr key, Data.BStr value] =>
      some (Command.Set key (Value.Str value) none (get_raw_array_command val))
    | _ => some Command.Invalid
  else if name = "CONFIG" then
    match rest with
    | [Data.BStr arg, Data.BStr key] =>
      if eqIgnoreCase arg "GET" then some (Command.ConfigGet key)
      else some Command.Invalid
    | _ => some Command.Invalid
  else if name = "KEYS" then
    match rest with
    | [Data.BStr pattern] => some (Command.Keys pattern)
    | _ => some Command.Invalid
  else if name = "INFO" then
    match rest with
    | [Data.BStr sec] =>
      if eqIgnoreCase sec "REPLICATION" then some Command.Info
      else some Command.Invalid
    | _ => some Command.Invalid
  else if name = "PSYNC" then
    match rest with
    | [Data.BStr rid, Data.BStr off] => some (Command.Psync rid off)
    | _ => some Command.Invalid
  else if name = "REPLCONF" then
    match rest with
    | Data.BStr subcmd :: Data.BStr arg :: _ =>
      if eqIgnoreCase subcmd "GETACK" && arg == "*" then
        some (Command.ReplconfGetAck arg)
      else if eqIgnoreCase subcmd "ACK" && is_number arg then
        (parseU64 arg).map Command.ReplconfAck
      else some Command.Replconf
    | _ => some Command.Replconf
  else if name = "WAIT" then
    match rest with
    | [Data.BStr num, Data.BStr t] =>
      if is_number num && is_number t then
        match parseI64 num, parseU64 t with
        | some n, some ms => some (Command.Wait n ms)
        | _, _ => none
      else some Command.Invalid
    | _ => some Command.Invalid
  else if name = "TYPE" then
    match rest with
    | [Data.BStr key] => some (Command.TypeC key)
    | _ => some Command.Invalid
  else if name = "XADD" then
    match rest with
    | [Data.BStr key, Data.BStr id, Data.BStr ek, Data.BStr ev] =>
      some (Command.XAdd key id (ek, ev))
    | _ => some Command.Invalid
  else if name = "XRANGE" then
    match rest with
    | [Data.BStr key, Data.BStr start, Data.BStr stop] =>
      some (Command.XRange key start stop)
    | _ => some Command.Invalid
  else if name = "XREAD" then parse_xread val
  else if name = "INCR" then
    match rest with
    | [Data.BStr key] => some (Command.Incr key (get_raw_array_command val))
    | _ => some Command.Invalid
  else if name = "MULTI" then some Command.Multi
  else if name = "EXEC" then some Command.Exec
  else if name = "DISCARD" then some Command.Discard
  else if name = "RPUSH" then
    match rest with
    | Data.BStr key :: _ =>
      some (Command.ListPush key (parse_string_args (val.drop 2)) false
        (get_raw_array_command val))
    | _ => some Command.Invalid
  else if name = "LPUSH" then
    match rest with
    | Data.BStr key :: _ =>
      some (Command.ListPush key (parse_string_args (val.drop 2)) true
        (get_raw_array_command val))
    | _ => some Command.Invalid
  else if name = "LRANGE" then
    match rest with
    | [Data.BStr key, Data.BStr start, Data.BStr stop] =>
      if is_number start && is_number stop then
        match parseI64 start, parseI64 stop with
        | some a, some b => some (Command.LRange key a b)
        | _, _ => none
      else some Command.Invalid
    | _ => some Command.Invalid
  else if name = "LLEN" then
    match rest with
    | [Data.BStr key] => some (Command.LLen key)
    | _ => some Command.Invalid
  else if name = "LPOP" then
    match rest with
    | [Data.BStr key, Data.BStr count] =>
      if is_number count then (parseU64 count).map (Command.LPop key)
      else some Command.Invalid
    | [Data.BStr key] => some (Command.LPop key 1)
    | _ => some Command.Invalid
  else if name = "BLPOP" then parse_blpop (val.drop 1)
  else if name = "SUBSCRIBE" then
    match rest with
    | [Data.BStr channel] => some (Command.Subscribe channel)
    | _ => some Command.Invalid
  else if name = "PUBLISH" then
    match rest with
    | [Data.BStr channel, Data.BStr message] =>
      some (Command.Publish channel message)
    | _ => some Command.Invalid
  else if name = "ZADD" then
    match rest with
    | [Data.BStr key, Data.BStr score, Data.BStr member] =>
      some (Command.ZAdd key ((decimalFromStrExact score).getD 0) member)
    | _ => some Command.Invalid
  else if name = "ZRANK" then
    match rest with
    | [Data.BStr key, Data.BStr member] => some (Command.ZRank key member)
    | _ => some Command.Invalid
  else if name = "ZRANGE" then
    match rest with
    | [Data.BStr key, Data.BStr start, Data.BStr stop] =>
      if is_number start && is_number stop then
        match parseI64 start, parseI64 stop with
        | some a, some b => some (Command.ZRange key a b)
        | _, _ => none
      else some Command.Invalid
    | _ => some Command.Invalid
  else if name = "ZCARD" then
    match rest with
    | [Data.BStr key] => some (Command.ZCard key)
    | _ => some Command.Invalid
  else if name = "ZSCORE" then
    match rest with
    | [Data.BStr key, Data.BStr member] => some (Command.ZScore key member)
    | _ => some Command.Invalid
  else if name = "ZREM" then
    match rest with
    | [Data.BStr key, Data.BStr member] => some (Command.ZRem key member)
    | _ => some Command.Invalid
  else if name = "GEOADD" then
    match rest with
    | [Data.BStr key, Data.BStr long, Data.BStr lat, Data.BStr member] =>
      some (Command.Geoadd key (Point.new lat long) member)
    | _ => some Command.Invalid
  else if name = "GEOPOS" then
    match rest with
    | Data.BStr key :: _ =>
      some (Command.Geopos key (parse_string_args (val.drop 2)))
    | _ => some Command.Invalid
  else if name = "GEODIST" then
    match rest with
    | [Data.BStr key, Data.BStr member, Data.BStr member_two] =>
      some (Command.Geodist key member member_two)
    | _ => some Command.Invalid
  else if name = "GEOSEARCH" then
    match rest with
    | [Data.BStr key, _, Data.BStr long, Data.BStr lat, _, Data.BStr radius, Data.BStr unit] =>
      some (Command.Geosearch key (Point.new lat long)
        ((parseF64 radius).getD 0) unit)
    | _ => some Command.Invalid
  else if name = "ACL" then
    match rest with
    | Data.BStr cmd :: _ => some (Command.Acl cmd (parse_string_args (val.drop 2)))
    | _ => some Command.Invalid
  else some Command.Invalid

/-- `From<&[Data]> for Command` (core.rs lines 120–283): the first element
must be a bulk string, dispatch is on its ASCII uppercase; `none` models a
panic of the source. -/
def commandFrom (now : Nat) (val : List Data) : Option Command :=
  match val with
  | Data.BStr command :: rest => commandDispatch now (strUpper command) rest val
  | _ => some Command.Invalid

/-! ### Store

The store engines live in src/store/ which is outside src/; every operation
below is modelled from the spec's contracts (§4.3). -/

/-- A stored record: value plus optional absolute expiry (§3 Entry). -/
structure Entry where
  value : Value
  expires_at : Option Nat

/-- Modelled from the spec: the shared key-value map, as an association
list keyed by the key string (first binding wins). -/
def Store := List (String × Entry)

/-- First binding of a key. -/
def Store.lookup (s : Store) (k : String) : Option Entry :=
  match s with
  | [] => none
  | (k', e) :: rest => if k' = k then some e else Store.lookup rest k

/-- Replace the first binding of a key, or append a new one. -/
def Store.insert (s : Store) (k : String) (e : Entry) : Store :=
  match s with
  | [] => [(k, e)]
  | (k', e') :: rest =>
    if k' = k then (k, e) :: rest else (k', e') :: Store.insert rest k e

/-- Remove every binding of a key. -/
def Store.remove (s : Store) (k : String) : Store :=
  s.filter (fun p => !(p.1 = k))

/-- An entry is past its expiry at `now`. -/
def Entry.expired (e : Entry) (now : Nat) : Bool :=
  match e.expires_at with
  | some t => decide (t ≤ now)
  | none => false

/-- Lookup that observes expiry: expired entries read as absent (§3). -/
def Store.lookupLive (s : Store) (k : String) (now : Nat) : Option Entry :=
  match Store.lookup s k with
  | some e => if e.expired now then none else some e
  | none => none

/-- Modelled from the spec: `set(k, v, expiry?)` unconditionally replaces any
existing entry and records `expires_at` when supplied. -/
def Store.set (s : Store) (k : String) (v : Value) (expiry : Option Nat) : Store :=
  Store.insert s k ⟨v, expiry⟩

/-- Modelled from the spec: `get(k)` returns the byte value or a null
marker, lazily deleting when expired; non-string kinds read as null here. -/
def Store.get (s : Store) (k : String) (now : Nat) : Data × Store :=
  match Store.lookup s k with
  | none => (Data.Null, s)
  | some e =>
    if e.expired now then (Data.Null, Store.remove s k)
    else
      match e.value with
      | Value.Str v => (Data.BStr v, s)
      | _ => (Data.Null, s)

/-- Modelled from the spec: `incr(k)` returns the new integer value on
success and the zero sentinel when the existing value cannot be parsed as a
signed 64-bit integer; an absent key stores `1`. -/
def Store.incr (s : Store) (k : String) : Int × Store :=
  match Store.lookup s k with
  | none => (1, Store.insert s k ⟨Value.Str "1", none⟩)
  | some e =>
    match e.value with
    | Value.Str v =>
      match parseI64 v with
      | some n => (n + 1, Store.insert s k ⟨Value.Str (toString (n + 1)), e.expires_at⟩)
      | none => (0, s)
    | _ => (0, s)

/-- Modelled from the spec: `list_push(k, values, is_left)` creates the list
on demand, prepends or appends in order and returns the new length; a
non-list kind under the key fails with a wrong-kind error. -/
def Store.list_push (s : Store) (k : String) (values : List String)
    (is_left : Bool) : Except String (Nat × Store) :=
  let push : List String → List String := fun l =>
    if is_left then values.foldl (fun acc v => v :: acc) l else l ++ values
  match Store.lookup s k with
  | none =>
    let l := push []
    Except.ok (l.length, Store.insert s k ⟨Value.ListV l, none⟩)
  | some e =>
    match e.value with
    | Value.ListV l =>
      let l' := push l
      Except.ok (l'.length, Store.insert s k ⟨Value.ListV l', e.expires_at⟩)
    | _ => Except.error "WRONGTYPE Operation against a key holding the wrong kind of value"

/-- Modelled from the spec: `list_pop(k, count)` removes and returns up to
`count` elements from the head; null when the key is absent. -/
def Store.list_pop (s : Store) (k : String) (count : Nat) :
    Option (List String) × Store :=
  match Store.lookup s k with
  | none => (none, s)
  | some e =>
    match e.value with
    | Value.ListV l =>
      (some (l.take count), Store.insert s k ⟨Value.ListV (l.drop count), e.expires_at⟩)
    | _ => (none, s)

/-- Clamped inclusive slice with negative-from-the-tail indices, shared by
LRANGE and ZRANGE (§4.3: negative indices count from the tail, out-of-range
bounds clamp, `start > end` is empty). -/
def rangeSlice (l : List String) (start stop : Int) : List String :=
  let n : Int := l.length
  let norm : Int → Int := fun i => if i < 0 then n + i else i
  let a : Int := max (norm start) 0
  let b : Int := min (norm stop) (n - 1)
  if a > b then []
  else ((l.drop a.toNat).take (b - a + 1).toNat)

/-- Modelled from the spec: `list_range(k, start, end)`. -/
def Store.list_range (s : Store) (k : String) (start stop : Int) : List String :=
  match Store.lookup s k with
  | some ⟨Value.ListV l, _⟩ => rangeSlice l start stop
  | _ => []

/-- Modelled from the spec: `list_len(k)` returns the length or zero. -/
def Store.list_len (s : Store) (k : String) : Nat :=
  match Store.lookup s k with
  | some ⟨Value.ListV l, _⟩ => l.length
  | _ => 0

/-! #### Streams -/

/-- Stream IDs compare lexicographically on `(ms, seq)` (§3). -/
def idLt (a b : Nat × Nat) : Bool :=
  a.1 < b.1 || (a.1 = b.1 && a.2 < b.2)

/-- Last (greatest, by the append-only invariant) ID of a stream, `(0,0)`
when empty. -/
def lastId (entries : List ((Nat × Nat) × (String × String))) : Nat × Nat :=
  match entries.getLast? with
  | some ((ms, seq), _) => (ms, seq)
  | none => (0, 0)

/-- Split a character list on `-` separators. -/
def splitOnDash (l : List Char) : List (List Char) :=
  match l with
  | [] => [[]]
  | c :: rest =>
    let r := splitOnDash rest
    if c = '-' then [] :: r
    else
      match r with
      | h :: t => (c :: h) :: t
      | [] => [[c]]

/-- Parse an explicit or semi-explicit stream ID specification against the
last ID (§4.3 add_stream): `*` auto-generates from the clock, `ms-*`
auto-generates the sequence, `ms-seq` is explicit. -/
def resolveIdSpec (now : Nat) (last : Nat × Nat) (spec : String) :
    Option (Nat × Nat) :=
  if spec = "*" then
    some (if last.1 = now then (now, last.2 + 1) else (now, 0))
  else
    match splitOnDash spec.data with
    | [msS, seqS] =>
      match parseNatList msS with
      | none => none
      | some ms =>
        if seqS = ['*'] then
          some (if last.1 = ms then (ms, last.2 + 1)
                else if ms = 0 then (ms, 1) else (ms, 0))
        else
          match parseNatList seqS with
          | some seq => some (ms, seq)
          | none => none
    | _ => none

/-- Modelled from the spec: `add_stream(k, id_spec, entry)` appends an entry
whose resolved ID must be strictly greater than the last ID; an explicit
`0-0` is rejected with its dedicated message. -/
def Store.add_stream (s : Store) (now : Nat) (k : String) (idSpec : String)
    (entry : String × String) : Except String (String × Store) :=
  let entries : List ((Nat × Nat) × (String × String)) :=
    match Store.lookup s k with
    | some ⟨Value.StreamV es, _⟩ => es
    | _ => []
  match resolveIdSpec now (lastId entries) idSpec with
  | none => Except.error "Invalid stream ID specified as stream command argument"
  | some (ms, seq) =>
    if ms = 0 ∧ seq = 0 then
      Except.error "The ID specified in XADD must be greater than 0-0"
    else if idLt (lastId entries) (ms, seq) then
      Except.ok (toString ms ++ "-" ++ toString seq,
        Store.insert s k ⟨Value.StreamV (entries ++ [((ms, seq), entry)]), none⟩)
    else
      Except.error "The ID specified in XADD is equal or smaller than the target stream top item"

/-- Textual form of a stream ID. -/
def idToString (i : Nat × Nat) : String :=
  toString i.1 ++ "-" ++ toString i.2

/-- Parse an XRANGE bound (§4.3): `-`/`+` denote minimum and maximum, a bare
`ms` expands with the given default sequence. -/
def parseRangeBound (spec : String) (defaultSeq : Nat) : Nat × Nat :=
  if spec = "-" then (0, 0)
  else if spec = "+" then (2 ^ 64 - 1, 2 ^ 64 - 1)
  else
    match splitOnDash spec.data with
    | [msS, seqS] => ((parseNatList msS).getD 0, (parseNatList seqS).getD 0)
    | _ => ((parseNatList spec.data).getD 0, defaultSeq)

/-- One stream entry as a wire datum: `[id, [field, value]]`. -/
def entryData (e : (Nat × Nat) × (String × String)) : Data :=
  Data.Arr [Data.BStr (idToString e.1),
    Data.Arr [Data.BStr e.2.1, Data.BStr e.2.2]]

/-- Modelled from the spec: `xrange(k, start, end)` returns the entries with
IDs inclusively between the bounds; absent keys yield no response (the
executor substitutes a null). -/
def Store.xrange (s : Store) (k : String) (start stop : String) : Option Data :=
  match Store.lookup s k with
  | some ⟨Value.StreamV es, _⟩ =>
    let lo := parseRangeBound start 0
    let hi := parseRangeBound stop (2 ^ 64 - 1)
    some (Data.Arr ((es.filter (fun e =>
      !(idLt e.1 lo) && !(idLt hi e.1))).map entryData))
  | _ => none

/-- Modelled from the spec: the non-blocking portion of `xread(streams)` —
for each stream the entries strictly greater than the supplied ID (`$`
meaning "only entries arriving later", hence none here); when no stream has
entries the executor substitutes a null array.  The blocking path is a
concurrency feature and is outside this model. -/
def Store.xread (s : Store) (streams : List (String × String)) : Option Data :=
  let per : String × String → List Data := fun p =>
    match Store.lookup s p.1 with
    | some ⟨Value.StreamV es, _⟩ =>
      if p.2 = "$" then []
      else
        let lo := parseRangeBound p.2 0
        let hits := es.filter (fun e => idLt lo e.1)
        if hits.isEmpty then []
        else [Data.Arr [Data.BStr p.1, Data.Arr (hits.map entryData)]]
    | _ => []
  let rs := streams.flatMap per
  if rs.isEmpty then none else some (Data.Arr rs)

/-! #### Sorted sets and geo -/

/-- Ascending (score, member-lexicographic) order of a sorted set (§3). -/
def zsort (l : List (String × ℚ)) : List (String × ℚ) :=
  l.mergeSort (fun a b => a.2 < b.2 || (a.2 = b.2 && a.1 ≤ b.1))

/-- Modelled from the spec: `zadd(k, score, member)` — 1 when the member is
new, 0 when its score was updated. -/
def Store.zadd (s : Store) (k : String) (score : ℚ) (member : String) :
    Int × Store :=
  match Store.lookup s k with
  | some e =>
    match e.value with
    | Value.ZSet l =>
      if l.any (fun p => p.1 = member) then
        (0, Store.insert s k
          ⟨Value.ZSet (l.map (fun p => if p.1 = member then (member, score) else p)),
            e.expires_at⟩)
      else
        (1, Store.insert s k ⟨Value.ZSet (l ++ [(member, score)]), e.expires_at⟩)
    | _ => (0, s)
  | none => (1, Store.insert s k ⟨Value.ZSet [(member, score)], none⟩)

/-- Members of a sorted set in rank order. -/
def Store.zmembers (s : Store) (k : String) : List (String × ℚ) :=
  match Store.lookup s k with
  | some ⟨Value.ZSet l, _⟩ => zsort l
  | _ => []

/-- Modelled from the spec: `zrank(k, member)` — 0-based ascending index. -/
def Store.zrank (s : Store) (k : String) (member : String) : Option Nat :=
  (Store.zmembers s k).findIdx? (fun p => p.1 = member)

/-- Modelled from the spec: `zrange(k, start, end)` with clamped,
negative-supporting inclusive bounds. -/
def Store.zrange (s : Store) (k : String) (start stop : Int) : List String :=
  rangeSlice ((Store.zmembers s k).map Prod.fst) start stop

/-- Modelled from the spec: `zcard`. -/
def Store.zcard (s : Store) (k : String) : Int :=
  (Store.zmembers s k).length

/-- Modelled from the spec: `zscore`. -/
def Store.zscore (s : Store) (k : String) (member : String) : Option ℚ :=
  ((Store.zmembers s k).find? (fun p => p.1 = member)).map Prod.snd

/-- Modelled from the spec: `zrem` — number removed (0 or 1). -/
def Store.zrem (s : Store) (k : String) (member : String) : Int × Store :=
  match Store.lookup s k with
  | some e =>
    match e.value with
    | Value.ZSet l =>
      if l.any (fun p => p.1 = member) then
        (1, Store.insert s k
          ⟨Value.ZSet (l.filter (fun p => !(p.1 = member))), e.expires_at⟩)
      else (0, s)
    | _ => (0, s)
  | none => (0, s)

/-- Latitude bound of the geo encoding (§3): ±85.05112878. -/
def maxLatitude : ℚ := (8505112878 : ℚ) / (100000000 : ℚ)

/-- Modelled from the spec: `validate_coords` (src/store/coords.rs, outside
src/) — latitude within ±85.05112878 and longitude within ±180, otherwise a
descriptive error. -/
def validate_coords (p : Point) : Option String :=
  if p.lat < -maxLatitude ∨ maxLatitude < p.lat
      ∨ p.long < -(180 : ℚ) ∨ (180 : ℚ) < p.long then
    some "invalid longitude,latitude pair"
  else none

/-- Interleave the low 26 bits of two naturals, `x` taking the odd (higher)
positions. -/
def interleaveBits (x y : Nat) : Nat :=
  (List.range 26).foldl
    (fun acc i => acc + ((x >>> i) % 2) * 2 ^ (2 * i + 1) + ((y >>> i) % 2) * 2 ^ (2 * i)) 0

/-- 26-bit quantisation of a coordinate within `[lo, hi]`. -/
def quantize26 (v lo hi : ℚ) : Nat :=
  min (2 ^ 26 - 1) (((v - lo) / (hi - lo) * (2 ^ 26 : ℚ)).floor.toNat)

/-- Modelled from the spec: the 52-bit interleaved geohash score (26 bits
per axis, §9). -/
def geohashEncode (p : Point) : Nat :=
  interleaveBits (quantize26 p.long (-180) 180)
    (quantize26 p.lat (-maxLatitude) maxLatitude)

/-- Modelled from the spec: `geoadd` computes the geohash and performs a
`zadd` on the underlying sorted set. -/
def Store.geoadd (s : Store) (k : String) (p : Point) (member : String) :
    Int × Store :=
  Store.zadd s k ((geohashEncode p : ℚ)) member

/-- De-interleave: the bits of even (when `odd = false`) or odd positions. -/
def deinterleaveBits (h : Nat) (odd : Bool) : Nat :=
  (List.range 26).foldl
    (fun acc i => acc + ((h >>> (2 * i + (if odd then 1 else 0))) % 2) * 2 ^ i) 0

/-- Centre of the cell a 26-bit quantised coordinate denotes. -/
def dequantize26 (n : Nat) (lo hi : ℚ) : ℚ :=
  lo + ((n : ℚ) + 1 / 2) / (2 ^ 26 : ℚ) * (hi - lo)

/-- Modelled from the spec: decode a geohash score back to (longitude,
latitude). -/
def geohashDecode (h : Nat) : ℚ × ℚ :=
  (dequantize26 (deinterleaveBits h true) (-180) 180,
   dequantize26 (deinterleaveBits h false) (-maxLatitude) maxLatitude)

/-- Decimal-ish rendering of a rational (exact for integers; a slash form
otherwise — no verified claim inspects non-integer renderings). -/
def ratToString (q : ℚ) : String :=
  if q.den = 1 then toString q.num
  else toString q.num ++ "/" ++ toString q.den

/-- Modelled from the spec: `geopos` — per member either the decoded
(longitude, latitude) pair or a null marker. -/
def Store.geopos (s : Store) (k : String) (members : List String) : List Data :=
  members.map (fun m =>
    match Store.zscore s k m with
    | some sc =>
      let c := geohashDecode sc.floor.toNat
      Data.Arr [Data.BStr (ratToString c.1), Data.BStr (ratToString c.2)]
    | none => Data.NullArr)

/-- Modelled from the spec: great-circle (haversine) distance in meters.
The trigonometric evaluation over IEEE doubles is not expressible in this
executable rational model; a surrogate metric that is zero exactly on equal
decoded coordinates and symmetric is used instead.  No verified claim
depends on its value. -/
def haversineMeters (a b : ℚ × ℚ) : ℚ :=
  (|a.1 - b.1| + |a.2 - b.2|) * 111320

/-- Zero-padded four-digit rendering. -/
def pad4 (n : Nat) : String :=
  if n < 10 then "000" ++ toString n
  else if n < 100 then "00" ++ toString n
  else if n < 1000 then "0" ++ toString n
  else toString n

/-- Fixed-point rendering with four fractional digits (§4.3 geodist). -/
def formatFixed4 (q : ℚ) : String :=
  let s := (q * 10000).floor
  toString (s / 10000) ++ "." ++ pad4 (s % 10000).toNat

/-- Modelled from the spec: `geodist(k, a, b)` — the distance with four
fractional digits, or null when either member is absent. -/
def Store.geodist (s : Store) (k : String) (a b : String) : Option String :=
  match Store.zscore s k a, Store.zscore s k b with
  | some sa, some sb =>
    some (formatFixed4 (haversineMeters
      (geohashDecode sa.floor.toNat) (geohashDecode sb.floor.toNat)))
  | _, _ => none

/-- Modelled from the spec: radius units accepted by GEOSEARCH, converted
to meters. -/
def unitToMeters (u : String) : ℚ :=
  if u = "km" then 1000
  else if u = "mi" then (160934 : ℚ) / 100
  else if u = "ft" then (3048 : ℚ) / 10000
  else 1

/-- Modelled from the spec: `geosearch` — members whose distance from the
centre is within the radius converted to meters. -/
def Store.geosearch (s : Store) (k : String) (center : Point) (radius : ℚ)
    (unit : String) : List String :=
  ((Store.zmembers s k).filter (fun p =>
    haversineMeters (geohashDecode p.2.floor.toNat) (center.long, center.lat)
      ≤ radius * unitToMeters unit)).map Prod.fst

/-- Modelled from the spec: glob matching for KEYS — `*` any run, `?` one
character, `[abc]` a class. -/
def globMatch (p : List Char) (s : List Char) : Bool :=
  match p, s with
  | [], [] => true
  | [], _ :: _ => false
  | '*' :: pr, [] => globMatch pr []
  | '*' :: pr, c :: sr =>
    globMatch pr (c :: sr) || globMatch ('*' :: pr) sr
  | '?' :: pr, _ :: sr => globMatch pr sr
  | '[' :: pr, c :: sr =>
    let cls := pr.takeWhile (fun x => !(x = ']'))
    let rest := (pr.dropWhile (fun x => !(x = ']'))).drop 1
    cls.contains c && globMatch rest sr
  | pc :: pr, c :: sr => pc == c && globMatch pr sr
  | _ :: _, [] => false
termination_by (s.length, p.length)

/-- Modelled from the spec: `handlers::keys` — the stored keys matching the
glob pattern, in store order. -/
def Store.keysMatching (s : Store) (pattern : String) : List String :=
  (s.map Prod.fst).filter (fun k => globMatch pattern.data k.data)

/-- Modelled from the spec: `handlers::type_handler` — the kind name of the
value under a key. -/
def Store.typeName (s : Store) (k : String) : String :=
  match Store.lookup s k with
  | none => "none"
  | some e =>
    match e.value with
    | Value.Str _ => "string"
    | Value.ListV _ => "list"
    | Value.StreamV _ => "stream"
    | Value.ZSet _ => "zset"

/-! ### Responses and the server context -/

/-- `CommandResponse` (src/command/response.rs, outside src/).  Modelled
from the spec: a single wire datum, the array of datums a transaction
returns, or the deferred REPLCONF ACK marker. -/
inductive CommandResponse where
  | Single : Data → CommandResponse
  | Multiple : List Data → CommandResponse
  | ReplconfAckR : CommandResponse

/-- Modelled from the spec: the response constructors of
src/command/response.rs all wrap one wire datum. -/
def sstring_response (s : String) : CommandResponse :=
  CommandResponse.Single (Data.SStr s)

/-- Bulk-string response. -/
def bstring_response (s : String) : CommandResponse :=
  CommandResponse.Single (Data.BStr s)

/-- Integer response. -/
def int_response (i : Int) : CommandResponse :=
  CommandResponse.Single (Data.IntD i)

/-- Error response. -/
def error_response (s : String) : CommandResponse :=
  CommandResponse.Single (Data.EStr s)

/-- Null (bulk) response. -/
def null_response : CommandResponse :=
  CommandResponse.Single Data.Null

/-- Null-array response. -/
def null_array_response : CommandResponse :=
  CommandResponse.Single Data.NullArr

/-- Array-of-bulk-strings response. -/
def array_response (xs : List String) : CommandResponse :=
  CommandResponse.Single (Data.Arr (xs.map Data.BStr))

/-- Nested-array response (GEOPOS). -/
def array_of_arrays_response (xs : List Data) : CommandResponse :=
  CommandResponse.Single (Data.Arr xs)

/-- `ServerContext` (context.rs lines 24–30), with the collaborators that
matter to the verified claims made explicit: the store, a configuration
view, the replication role string, the master's propagated offset and the
acknowledged offsets of the connected replicas, and the per-channel
subscriber counts. -/
structure ServerContext where
  store : Store
  config : List (String × String)
  role : String
  masterOffset : Nat
  replicaAcks : List Nat
  channelSubs : List (String × Nat)

/-- Modelled from the spec: `config::get_config_value` — the configuration
surface presented via CONFIG GET. -/
def getConfigValue (ctx : ServerContext) (k : String) : Option String :=
  (ctx.config.find? (fun p => p.1 = k)).map Prod.snd

/-- Modelled from the spec: `handlers::wait` — how many followers have
acknowledged at least the master's current propagated offset (the temporal
wait-or-timeout part is outside this model). -/
def waitCount (ctx : ServerContext) : Int :=
  ((ctx.replicaAcks.filter (fun a => decide (ctx.masterOffset ≤ a))).length : Int)

/-- Modelled from the spec: `ChannelManager.publish` returns the number of
recipients. -/
def publishCount (ctx : ServerContext) (channel : String) : Int :=
  (((ctx.channelSubs.find? (fun p => p.1 = channel)).map Prod.snd).getD 0 : Int)

/-- Modelled from the spec: `auth::acl` — the static admin-command
responder stub. -/
def aclRespond (_cmd : String) (_args : List String) : String :=
  "OK"

/-- Modelled from the spec: `blpop_handler`'s immediate (non-blocking) path —
the first named key holding a non-empty list yields `[key, head]`; otherwise
the timeout path answers null.  The parking/waking machinery is a
concurrency feature outside this model. -/
def blpopImmediate (s : Store) (keys : List String) :
    Option (List String) × Store :=
  match keys with
  | [] => (none, s)
  | k :: rest =>
    match Store.lookup s k with
    | some e =>
      match e.value with
      | Value.ListV (v :: vs) =>
        (some [k, v], Store.insert s k ⟨Value.ListV vs, e.expires_at⟩)
      | _ => blpopImmediate s rest
    | none => blpopImmediate s rest

/-- `ServerContext::execute_command` (context.rs lines 33–164), branch for
branch and in source order; the returned list is the byte strings this call
handed to the replica broadcaster (`propagate`, lines 194–200).  Branches
whose collaborators live outside src/ use the spec-modelled operations
above.  The final catch-all (line 162) answers a null response — it covers
`Invalid`, `Psync`, `ReplconfAck`, `Exec`, `Discard`, `Transaction` and
`Subscribe`. -/
def execute_command (now : Nat) (ctx : ServerContext) :
    Command → CommandResponse × ServerContext × List String
  | Command.Ping => (sstring_response "PONG", ctx, [])
  | Command.Echo v => (bstring_response v, ctx, [])
  | Command.Get key =>
    let (d, st) := Store.get ctx.store key now
    (CommandResponse.Single d, { ctx with store := st }, [])
  | Command.Set key value expiry raw_command =>
    (sstring_response "OK",
      { ctx with store := Store.set ctx.store key value expiry }, [raw_command])
  | Command.ConfigGet key =>
    (match getConfigValue ctx key with
     | some v => array_response [key, v]
     | none => null_response, ctx, [])
  | Command.Keys pattern =>
    (CommandResponse.Single
      (Data.Arr ((Store.keysMatching ctx.store pattern).map Data.BStr)), ctx, [])
  | Command.Info => (bstring_response ("role:" ++ ctx.role), ctx, [])
  | Command.Replconf => (sstring_response "OK", ctx, [])
  | Command.ReplconfGetAck _ => (CommandResponse.ReplconfAckR, ctx, [])
  | Command.Wait _ _ => (int_response (waitCount ctx), ctx, [])
  | Command.TypeC key => (sstring_response (Store.typeName ctx.store key), ctx, [])
  | Command.XAdd key id entry =>
    (match Store.add_stream ctx.store now key id entry with
     | Except.ok (res, st) => (bstring_response res, { ctx with store := st }, [])
     | Except.error e => (error_response e, ctx, []))
  | Command.XRange key start stop =>
    (match Store.xrange ctx.store key start stop with
     | some d => CommandResponse.Single d
     | none => null_response, ctx, [])
  | Command.XRead streams _ =>
    (match Store.xread ctx.store streams with
     | some d => CommandResponse.Single d
     | none => null_array_response, ctx, [])
  | Command.Incr key raw_command =>
    let (v, st) := Store.incr ctx.store key
    if v = 0 then
      (error_response "value is not an integer or out of range",
        { ctx with store := st }, [])
    else (int_response v, { ctx with store := st }, [raw_command])
  | Command.ListPush key values is_left raw_command =>
    (match Store.list_push ctx.store key values is_left with
     | Except.ok (len, st) =>
       (int_response (len : Int), { ctx with store := st }, [raw_command])
     | Except.error e => (error_response e, ctx, []))
  | Command.LRange key start stop =>
    (array_response (Store.list_range ctx.store key start stop), ctx, [])
  | Command.LLen key => (int_response ((Store.list_len ctx.store key : Int)), ctx, [])
  | Command.LPop key count =>
    let (r, st) := Store.list_pop ctx.store key count
    (match r with
     | some values =>
       if values.length = 1 then bstring_response (values.headD "")
       else array_response values
     | none => null_response, { ctx with store := st }, [])
  | Command.BLPop keys _ =>
    let (r, st) := blpopImmediate ctx.store keys
    (match r with
     | some value => array_response value
     | none => null_array_response, { ctx with store := st }, [])
  | Command.Multi => (sstring_response "OK", ctx, [])
  | Command.Publish channel _ => (int_response (publishCount ctx channel), ctx, [])
  | Command.ZAdd key score member =>
    let (n, st) := Store.zadd ctx.store key score member
    (int_response n, { ctx with store := st }, [])
  | Command.ZRank key member =>
    (match Store.zrank ctx.store key member with
     | some rank => int_response ((rank : Int))
     | none => null_response, ctx, [])
  | Command.ZRange key start stop =>
    (array_response (Store.zrange ctx.store key start stop), ctx, [])
  | Command.ZCard key => (int_response (Store.zcard ctx.store key), ctx, [])
  | Command.ZScore key member =>
    (match Store.zscore ctx.store key member with
     | some score => bstring_response (ratToString score)
     | none => null_response, ctx, [])
  | Command.ZRem key member =>
    let (n, st) := Store.zrem ctx.store key member
    (int_response n, { ctx with store := st }, [])
  | Command.Geoadd key point member =>
    (match validate_coords point with
     | none =>
       let (n, st) := Store.geoadd ctx.store key point member
       (int_response n, { ctx with store := st }, [])
     | some err => (error_response err, ctx, []))
  | Command.Geopos key members =>
    (match Store.geopos ctx.store key members with
     | [] => null_array_response
     | arr => array_of_arrays_response arr, ctx, [])
  | Command.Geodist key from_m to_m =>
    (match Store.geodist ctx.store key from_m to_m with
     | some dist => bstring_response dist
     | none => null_response, ctx, [])
  | Command.Geosearch key point radius unit =>
    (array_response (Store.geosearch ctx.store key point radius unit), ctx, [])
  | Command.Acl cmd args => (bstring_response (aclRespond cmd args), ctx, [])
  | _ => (null_response, ctx, [])

/-- Sequential execution of a command list, collecting every response. -/
def execSeq (now : Nat) (ctx : ServerContext) :
    List Command → List CommandResponse × ServerContext × List String
  | [] => ([], ctx, [])
  | c :: cs =>
    let (r, ctx1, log1) := execute_command now ctx c
    let (rs, ctx2, log2) := execSeq now ctx1 cs
    (r :: rs, ctx2, log1 ++ log2)

/-- The loop body of `process_transaction` (context.rs lines 166–174): each
command is executed in order, and only the payloads of `Single` responses
are pushed onto the result vector. -/
def process_transaction_go (now : Nat) :
    List Command → ServerContext → List Data × ServerContext × List String
  | [], ctx => ([], ctx, [])
  | c :: cs, ctx =>
    let (r, ctx1, log1) := execute_command now ctx c
    let (rs, ctx2, log2) := process_transaction_go now cs ctx1
    ((match r with
      | CommandResponse.Single d => d :: rs
      | _ => rs), ctx2, log1 ++ log2)

/-- `ServerContext::process_transaction` (context.rs lines 166–174). -/
def process_transaction (now : Nat) (ctx : ServerContext)
    (commands : List Command) : CommandResponse × ServerContext × List String :=
  let (rs, ctx', log) := process_transaction_go now commands ctx
  (CommandResponse.Multiple rs, ctx', log)

/-! ### Connection dispatcher (outside src/) -/

/-- Connection mode (§4.7). -/
inductive Mode where
  | Normal
  | Transacting
  | Subscribed
deriving Repr, DecidableEq

/-- Per-connection state: the mode flag and the transaction buffer (§4.7). -/
structure ConnState where
  mode : Mode
  buffer : List Command

/-- The `Invalid` variant recogniser. -/
def Command.isInvalid : Command → Bool
  | Command.Invalid => true
  | _ => false

/-- Modelled from the spec: the per-connection dispatcher (§4.7, the
connection context lives outside src/).  On MULTI the mode becomes
`Transacting`; queued commands are acknowledged `+QUEUED` without execution;
on EXEC in `Transacting` a buffer containing an `Invalid` command aborts
with an error and the cleared buffer, otherwise the buffer is handed to
`process_transaction`; DISCARD clears the buffer. -/
def dispatch (now : Nat) (ctx : ServerContext) (conn : ConnState)
    (c : Command) : CommandResponse × ServerContext × ConnState × List String :=
  match conn.mode, c with
  | Mode.Transacting, Command.Exec =>
    if conn.buffer.any Command.isInvalid then
      (error_response "EXEC aborted: transaction contains invalid commands",
        ctx, ⟨Mode.Normal, []⟩, [])
    else
      let (r, ctx', log) := process_transaction now ctx conn.buffer
      (r, ctx', ⟨Mode.Normal, []⟩, log)
  | Mode.Transacting, Command.Discard =>
    (sstring_response "OK", ctx, ⟨Mode.Normal, []⟩, [])
  | Mode.Transacting, queued =>
    (sstring_response "QUEUED", ctx,
      ⟨Mode.Transacting, conn.buffer ++ [queued]⟩, [])
  | Mode.Normal, Command.Multi =>
    let (r, ctx', log) := execute_command now ctx Command.Multi
    (r, ctx', ⟨Mode.Transacting, conn.buffer⟩, log)
  | _, other =>
    let (r, ctx', log) := execute_command now ctx other
    (r, ctx', conn, log)

/-! ### Shared helpers for the theorems -/

/-- An empty server context (fresh store, no replicas, no subscribers). -/
def ctxEmpty : ServerContext := ⟨[], [], "master", 0, [], []⟩

/-- The payload of a `Single` response, `none` for the other shapes. -/
def singlePayload : CommandResponse → Option Data
  | CommandResponse.Single d => some d
  | _ => none

theorem parse_string_args_map (l : List String) :
    parse_string_args (l.map Data.BStr) = l := by
  induction l with
  | nil => rfl
  | cons x xs ih => simp [parse_string_args] at ih ⊢; exact ih

theorem execSeq_fst_length (now : Nat) (ctx : ServerContext) (cmds : List Command) :
    (execSeq now ctx cmds).1.length = cmds.length := by
  induction cmds generalizing ctx with
  | nil => rfl
  | cons c cs ih => simp [execSeq]; exact ih _

theorem filterMap_isSome_length {α β : Type} (f : α → Option β) :
    ∀ l : List α, (∀ a ∈ l, (f a).isSome) → (l.filterMap f).length = l.length := by
  intro l
  induction l with
  | nil => intro _; rfl
  | cons x xs ih =>
    intro h
    have hx := h x (List.mem_cons_self x xs)
    obtain ⟨b, hb⟩ := Option.isSome_iff_exists.mp hx
    simp [List.filterMap_cons, hb]
    exact fun a ha => h a (List.mem_cons_of_mem x ha)

theorem process_go_eq (now : Nat) (cmds : List Command) (ctx : ServerContext) :
    process_transaction_go now cmds ctx
      = ((execSeq now ctx cmds).1.filterMap singlePayload,
         (execSeq now ctx cmds).2.1, (execSeq now ctx cmds).2.2) := by
  induction cmds generalizing ctx with
  | nil => rfl
  | cons c cs ih =>
    simp only [process_transaction_go, execSeq, ih]
    rcases execute_command now ctx c with ⟨r, ctx1, log1⟩
    cases r <;> simp [singlePayload, List.filterMap_cons]

/-! ### Claims -/

/-- C4.  The claim states that `From<&[Data]> for Command` is total and
never panics.  It is not: `XREAD` alone reaches the slice `&val[1..=2]`
(index out of range for a 1-element array), `XREAD BLOCK 100` reaches
`&val[4..]` on a 3-element array, `BLPOP` alone underflows `val.len() - 1`,
and `REPLCONF ACK 1.5` passes the `is_number` guard but panics in
`"1.5".parse::<usize>().unwrap()`.  In this embedding a panic is `none`. -/
theorem C4_parser_panics :
    commandFrom 0 [Data.BStr "XREAD"] = none
    ∧ commandFrom 0 [Data.BStr "XREAD", Data.BStr "BLOCK", Data.BStr "100"] = none
    ∧ commandFrom 0 [Data.BStr "BLPOP"] = none
    ∧ commandFrom 0 [Data.BStr "REPLCONF", Data.BStr "ACK", Data.BStr "1.5"] = none
    ∧ commandFrom 0 [Data.BStr "WAIT", Data.BStr "1.5", Data.BStr "0"] = none
    ∧ commandFrom 0 [Data.BStr "LRANGE", Data.BStr "l", Data.BStr "1.5", Data.BStr "2"] = none :=
  ⟨rfl, rfl, rfl, rfl, rfl, rfl⟩

/-- C10.  A ZADD whose score is not a valid decimal string still parses: the
score defaults to 0 (`Decimal::from_str_exact(score).unwrap_or_default()`,
core.rs line 228) instead of resolving to `Invalid`. -/
theorem C10_zadd_default_score (now : Nat) (k sc m : String)
    (h : decimalFromStrExact sc = none) :
    commandFrom now [Data.BStr "ZADD", Data.BStr k, Data.BStr sc, Data.BStr m]
      = some (Command.ZAdd k 0 m) := by
  show some (Command.ZAdd k ((decimalFromStrExact sc).getD 0) m)
      = some (Command.ZAdd k 0 m)
  rw [h]
  rfl

/-- C10 witness: `ZADD key abc member` parses to a ZAdd with score 0. -/
theorem C10_zadd_default_score_witness :
    commandFrom 0 [Data.BStr "ZADD", Data.BStr "key", Data.BStr "abc", Data.BStr "member"]
      = some (Command.ZAdd "key" 0 "member") :=
  C10_zadd_default_score 0 "key" "abc" "member" rfl

/-- C2 counterexample.  The claim states the executor maps the `Invalid`
variant to an error response.  It does not: `Invalid` falls to the final
catch-all of `execute_command` (context.rs line 162), which answers
`null_response()` — and a null response is not an error response. -/
theorem C2_counterexample :
    execute_command 0 ctxEmpty Command.Invalid = (null_response, ctxEmpty, [])
    ∧ ∀ s : String, null_response ≠ error_response s := by
  refine ⟨rfl, ?_⟩
  intro s h
  simp only [null_response, error_response] at h
  injection h with h2
  exact Data.noConfusion h2

/-- C2 (amended).  Parsing yields `Invalid` both for a first word that is
none of the recognised command words (stated for ASCII words, where the
model's uppercasing coincides with the source's `str::to_uppercase`) and
for a recognised word followed by a shape matching no parse arm (GET shown
exhaustively: an argument count other than one, or one non-bulk-string
argument); executing the `Invalid` variant produces a null response on the
wire (not an error), and the call returns normally, so the connection is
not terminated. -/
theorem C2_invalid_yields_null (now : Nat) (ctx : ServerContext)
    (name : String) (rest : List Data)
    (hascii : name.data.all (fun c => c.toNat < 128) = true)
    (h : strUpper name ∉ recognizedNames) :
    commandFrom now (Data.BStr name :: rest) = some Command.Invalid
    ∧ (rest.length ≠ 1 →
        commandFrom now (Data.BStr "GET" :: rest) = some Command.Invalid)
    ∧ (∀ d : Data, (∀ s : String, d ≠ Data.BStr s) →
        commandFrom now [Data.BStr "GET", d] = some Command.Invalid)
    ∧ execute_command now ctx Command.Invalid = (null_response, ctx, []) := by
  refine ⟨?_, ?_, ?_, rfl⟩
  · simp only [recognizedNames, List.mem_cons, List.not_mem_nil, or_false, not_or] at h
    obtain ⟨h1, h2, h3, h4, h5, h6, h7, h8, h9, h10, h11, h12, h13, h14, h15, h16,
      h17, h18, h19, h20, h21, h22, h23, h24, h25, h26, h27, h28, h29, h30, h31,
      h32, h33, h34, h35, h36, h37⟩ := h
    show commandDispatch now (strUpper name) rest (Data.BStr name :: rest)
        = some Command.Invalid
    unfold commandDispatch
    rw [if_neg h1, if_neg h2, if_neg h3, if_neg h4, if_neg h5, if_neg h6,
      if_neg h7, if_neg h8, if_neg h9, if_neg h10, if_neg h11, if_neg h12,
      if_neg h13, if_neg h14, if_neg h15, if_neg h16, if_neg h17, if_neg h18,
      if_neg h19, if_neg h20, if_neg h21, if_neg h22, if_neg h23, if_neg h24,
      if_neg h25, if_neg h26, if_neg h27, if_neg h28, if_neg h29, if_neg h30,
      if_neg h31, if_neg h32, if_neg h33, if_neg h34, if_neg h35, if_neg h36,
      if_neg h37]
  · intro hlen
    rcases rest with _ | ⟨a, _ | ⟨b, t2⟩⟩
    · rfl
    · exact absurd rfl hlen
    · cases a <;> rfl
  · intro d hd
    cases d with
    | BStr s => exact absurd rfl (hd s)
    | SStr s => rfl
    | EStr s => rfl
    | IntD i => rfl
    | Arr l => rfl
    | Null => rfl
    | NullArr => rfl

/-- C2 witness: the unrecognised ASCII word FLUSHALL parses to `Invalid`,
as does the malformed shape `GET` with no argument; executing `Invalid`
answers null without terminating. -/
theorem C2_invalid_yields_null_witness :
    commandFrom 0 [Data.BStr "FLUSHALL"] = some Command.Invalid
    ∧ commandFrom 0 [Data.BStr "GET"] = some Command.Invalid
    ∧ execute_command 0 ctxEmpty Command.Invalid = (null_response, ctxEmpty, []) :=
  ⟨(C2_invalid_yields_null 0 ctxEmpty "FLUSHALL" [] (by decide) (by decide)).1,
   (C2_invalid_yields_null 0 ctxEmpty "FLUSHALL" [] (by decide) (by decide)).2.1
     (by decide),
   (C2_invalid_yields_null 0 ctxEmpty "FLUSHALL" [] (by decide) (by decide)).2.2.2⟩

/-- C1 counterexample.  The claim promises one response array element per
buffered command.  `process_transaction` (context.rs lines 166–174) pushes
only `CommandResponse::Single` payloads; a buffered `REPLCONF GETACK *`
executes to the non-single `ReplconfAck` marker (context.rs line 57), so a
one-command buffer yields a zero-element EXEC array. -/
theorem C1_counterexample :
    (dispatch 0 ctxEmpty ⟨Mode.Transacting, [Command.ReplconfGetAck "*"]⟩
        Command.Exec).1 = CommandResponse.Multiple []
    ∧ [Command.ReplconfGetAck "*"].length = 1 :=
  ⟨rfl, rfl⟩

/-- C1 (amended).  On EXEC in `Transacting`: the buffered commands are
executed in queued order and the payloads of their single responses are
returned as one array in the same order (commands whose execution yields a
non-single response contribute no element, so the array has one element per
command exactly when every response is single); when the buffer contains an
`Invalid` command EXEC aborts with an error, no buffered command is executed
(the context is unchanged, and nothing is propagated) and the buffer is
cleared. -/
theorem C1_exec_transaction (now : Nat) (ctx : ServerContext) (cmds : List Command) :
    process_transaction now ctx cmds
      = (CommandResponse.Multiple ((execSeq now ctx cmds).1.filterMap singlePayload),
         (execSeq now ctx cmds).2.1, (execSeq now ctx cmds).2.2)
    ∧ ((∀ r ∈ (execSeq now ctx cmds).1, (singlePayload r).isSome) →
        ((execSeq now ctx cmds).1.filterMap singlePayload).length = cmds.length)
    ∧ (cmds.any Command.isInvalid = true →
        dispatch now ctx ⟨Mode.Transacting, cmds⟩ Command.Exec
          = (error_response "EXEC aborted: transaction contains invalid commands",
             ctx, ⟨Mode.Normal, []⟩, []))
    ∧ (cmds.any Command.isInvalid = false →
        dispatch now ctx ⟨Mode.Transacting, cmds⟩ Command.Exec
          = (CommandResponse.Multiple ((execSeq now ctx cmds).1.filterMap singlePayload),
             (execSeq now ctx cmds).2.1, ⟨Mode.Normal, []⟩,
             (execSeq now ctx cmds).2.2)) := by
  have hgo := process_go_eq now cmds ctx
  have hpt : process_transaction now ctx cmds
      = (CommandResponse.Multiple ((execSeq now ctx cmds).1.filterMap singlePayload),
         (execSeq now ctx cmds).2.1, (execSeq now ctx cmds).2.2) := by
    simp only [process_transaction, hgo]
  refine ⟨hpt, ?_, ?_, ?_⟩
  · intro hall
    exact (filterMap_isSome_length singlePayload _ hall).trans
      (execSeq_fst_length now ctx cmds)
  · intro hinv
    simp only [dispatch, hinv, if_true]
  · intro hninv
    simp only [dispatch, hninv, Bool.false_eq_true, if_false, hpt]

/-- C1 witness: an EXEC whose buffer holds one `Invalid` command aborts with
the error and clears the buffer; a buffer of one PING yields a one-element
array. -/
theorem C1_exec_transaction_witness :
    dispatch 0 ctxEmpty ⟨Mode.Transacting, [Command.Invalid]⟩ Command.Exec
      = (error_response "EXEC aborted: transaction contains invalid commands",
         ctxEmpty, ⟨Mode.Normal, []⟩, [])
    ∧ ((execSeq 0 ctxEmpty [Command.Ping]).1.filterMap singlePayload).length = 1 :=
  ⟨(C1_exec_transaction 0 ctxEmpty [Command.Invalid]).2.2.1 rfl,
   (C1_exec_transaction 0 ctxEmpty [Command.Ping]).2.1
     (by intro r hr; simp only [execSeq, execute_command] at hr;
         simp only [List.mem_singleton] at hr; subst hr; rfl)⟩

/-- C3 counterexample.  The claim says every write command (XADD among
them) carries its reconstructed raw wire bytes and hands them to the
replica broadcaster.  XADD's variant carries no raw bytes at all, and its
execution hands nothing to the broadcaster. -/
theorem C3_counterexample :
    commandFrom 0 [Data.BStr "XADD", Data.BStr "s", Data.BStr "1-1",
        Data.BStr "k", Data.BStr "v"]
      = some (Command.XAdd "s" "1-1" ("k", "v"))
    ∧ (execute_command 0 ctxEmpty (Command.XAdd "s" "1-1" ("k", "v"))).2.2 = [] := by
  constructor
  · rfl
  · show (match Store.add_stream ctxEmpty.store 0 "s" "1-1" ("k", "v") with
      | Except.ok (res, st) =>
        (bstring_response res, { ctxEmpty with store := st }, ([] : List String))
      | Except.error e => (error_response e, ctxEmpty, [])).2.2 = []
    rfl

/-- C3 (amended).  Exactly the write commands SET, INCR, RPUSH and LPUSH
carry the reconstructed canonical bulk-string-array bytes, and on
successful execution the executor hands exactly those bytes, unmodified, to
the replica broadcaster; XADD, ZADD and GEOADD carry no raw bytes and
propagate nothing. -/
theorem C3_raw_bytes (now : Nat) (ctx : ServerContext)
    (key value raw : String) (vals : List String)
    (xkey xid : String) (xentry : String × String) (zsc : ℚ) (zmember : String)
    (gp : Point) :
    (commandFrom now [Data.BStr "SET", Data.BStr key, Data.BStr value]
       = some (Command.Set key (Value.Str value) none
           (get_raw_array_command [Data.BStr "SET", Data.BStr key, Data.BStr value])))
    ∧ (execute_command now ctx (Command.Set key (Value.Str value) none raw)
       = (sstring_response "OK",
          { ctx with store := Store.set ctx.store key (Value.Str value) none }, [raw]))
    ∧ (commandFrom now [Data.BStr "INCR", Data.BStr key]
       = some (Command.Incr key
           (get_raw_array_command [Data.BStr "INCR", Data.BStr key])))
    ∧ (∀ v st, Store.incr ctx.store key = (v, st) → v ≠ 0 →
        execute_command now ctx (Command.Incr key raw)
          = (int_response v, { ctx with store := st }, [raw]))
    ∧ (commandFrom now (Data.BStr "RPUSH" :: Data.BStr key :: vals.map Data.BStr)
       = some (Command.ListPush key vals false
           (get_raw_array_command
             (Data.BStr "RPUSH" :: Data.BStr key :: vals.map Data.BStr))))
    ∧ (commandFrom now (Data.BStr "LPUSH" :: Data.BStr key :: vals.map Data.BStr)
       = some (Command.ListPush key vals true
           (get_raw_array_command
             (Data.BStr "LPUSH" :: Data.BStr key :: vals.map Data.BStr))))
    ∧ (∀ b n st, Store.list_push ctx.store key vals b = Except.ok (n, st) →
        execute_command now ctx (Command.ListPush key vals b raw)
          = (int_response (n : Int), { ctx with store := st }, [raw]))
    ∧ ((execute_command now ctx (Command.XAdd xkey xid xentry)).2.2 = [])
    ∧ ((execute_command now ctx (Command.ZAdd xkey zsc zmember)).2.2 = [])
    ∧ ((execute_command now ctx (Command.Geoadd xkey gp zmember)).2.2 = []) := by
  refine ⟨rfl, rfl, rfl, ?_, ?_, ?_, ?_, ?_, rfl, ?_⟩
  · intro v st hincr hv
    simp only [execute_command, hincr]
    simp [hv]
  · show some (Command.ListPush key (parse_string_args (vals.map Data.BStr)) false
        (get_raw_array_command (Data.BStr "RPUSH" :: Data.BStr key :: vals.map Data.BStr)))
      = some (Command.ListPush key vals false
        (get_raw_array_command (Data.BStr "RPUSH" :: Data.BStr key :: vals.map Data.BStr)))
    rw [parse_string_args_map]
  · show some (Command.ListPush key (parse_string_args (vals.map Data.BStr)) true
        (get_raw_array_command (Data.BStr "LPUSH" :: Data.BStr key :: vals.map Data.BStr)))
      = some (Command.ListPush key vals true
        (get_raw_array_command (Data.BStr "LPUSH" :: Data.BStr key :: vals.map Data.BStr)))
    rw [parse_string_args_map]
  · intro b n st hpush
    simp only [execute_command, hpush]
  · simp only [execute_command]
    cases hs : Store.add_stream ctx.store now xkey xid xentry with
    | ok p => cases p; rfl
    | error e => rfl
  · simp only [execute_command]
    cases hv : validate_coords gp with
    | none => rfl
    | some err => rfl

theorem zip_map_filter (keys : List String) :
    ∀ ids : List String, keys.length = ids.length →
      ((keys.map Data.BStr).zip (ids.map Data.BStr)).filterMap
        (fun p => match p with
          | (Data.BStr stream, Data.BStr id) => some (stream, id)
          | _ => none) = keys.zip ids := by
  induction keys with
  | nil => intro ids _; rfl
  | cons k ks ih =>
    intro ids h
    cases ids with
    | nil => exact absurd h (by simp)
    | cons i is2 =>
      simp only [List.map_cons, List.zip_cons_cons, List.filterMap_cons]
      show (k, i) :: ((ks.map Data.BStr).zip (is2.map Data.BStr)).filterMap _
          = (k, i) :: ks.zip is2
      rw [ih is2 (by simpa using h)]

theorem xread_tail_eval (keys ids : List String) (hlen : keys.length = ids.length)
    (block : Option Nat) :
    Command.XRead
      ((((keys.map Data.BStr ++ ids.map Data.BStr).take
          ((keys.map Data.BStr ++ ids.map Data.BStr).length / 2)).zip
        ((keys.map Data.BStr ++ ids.map Data.BStr).drop
          ((keys.map Data.BStr ++ ids.map Data.BStr).length / 2))).filterMap
        (fun p => match p with
          | (Data.BStr stream, Data.BStr id) => some (stream, id)
          | _ => none)) block
      = Command.XRead (keys.zip ids) block := by
  have hmid : (keys.map Data.BStr ++ ids.map Data.BStr).length / 2
      = (keys.map Data.BStr).length := by
    simp only [List.length_append, List.length_map, hlen]
    omega
  rw [hmid, List.take_left, List.drop_left]
  exact congrArg (fun l => Command.XRead l block) (zip_map_filter keys ids hlen)

/-- C5 counterexample.  The claim says an unbalanced key/id count resolves
to `Invalid`.  It does not: `XREAD STREAMS k1 k2 id1` (two keys, one id)
splits the three trailing arguments at the floor midpoint and zips, pairing
"k1" with "k2" and silently discarding "id1" — an `XRead`, not `Invalid`. -/
theorem C5_counterexample :
    commandFrom 0 [Data.BStr "XREAD", Data.BStr "STREAMS", Data.BStr "k1",
        Data.BStr "k2", Data.BStr "id1"]
      = some (Command.XRead [("k1", "k2")] none)
    ∧ some (Command.XRead [("k1", "k2")] none) ≠ some Command.Invalid := by
  refine ⟨rfl, ?_⟩
  intro h
  injection h with h2
  exact Command.noConfusion h2

/-- C5 (amended).  The parser splits the arguments after STREAMS at the
floor midpoint and zips the halves, truncating the longer side; unbalanced
counts are not rejected.  When the counts are balanced the parsed command
pairs key_i with id_i in order — both without BLOCK (any balanced nonempty
lists) and with BLOCK (its millisecond argument carried through). -/
theorem C5_xread_pairing (now : Nat) (keys ids : List String)
    (hlen : keys.length = ids.length) (hne : keys ≠ []) :
    commandFrom now (Data.BStr "XREAD" :: Data.BStr "STREAMS"
        :: (keys.map Data.BStr ++ ids.map Data.BStr))
      = some (Command.XRead (keys.zip ids) none)
    ∧ commandFrom now [Data.BStr "XREAD", Data.BStr "BLOCK", Data.BStr "100",
        Data.BStr "STREAMS", Data.BStr "s", Data.BStr "0-0"]
      = some (Command.XRead [("s", "0-0")] (some 100)) := by
  obtain ⟨k, ks, rfl⟩ : ∃ a l, keys = a :: l := by
    cases keys with
    | nil => exact absurd rfl hne
    | cons a l => exact ⟨a, l, rfl⟩
  exact ⟨congrArg some (xread_tail_eval (k :: ks) ids hlen none), rfl⟩

/-- C5 witness: `XREAD STREAMS a b 0-0 5-5` pairs a↦0-0 and b↦5-5 in
order; `XREAD BLOCK 100 STREAMS s 0-0` carries the BLOCK milliseconds. -/
theorem C5_xread_pairing_witness :
    commandFrom 0 (Data.BStr "XREAD" :: Data.BStr "STREAMS"
        :: (["a", "b"].map Data.BStr ++ ["0-0", "5-5"].map Data.BStr))
      = some (Command.XRead [("a", "0-0"), ("b", "5-5")] none)
    ∧ commandFrom 0 [Data.BStr "XREAD", Data.BStr "BLOCK", Data.BStr "100",
        Data.BStr "STREAMS", Data.BStr "s", Data.BStr "0-0"]
      = some (Command.XRead [("s", "0-0")] (some 100)) :=
  ⟨(C5_xread_pairing 0 ["a", "b"] ["0-0", "5-5"] rfl (by decide)).1,
   (C5_xread_pairing 0 ["a", "b"] ["0-0", "5-5"] rfl (by decide)).2⟩

/-- C3 witness: concrete INCR and RPUSH executions propagate exactly the
attached raw bytes. -/
theorem C3_raw_bytes_witness :
    execute_command 0 ctxEmpty (Command.Incr "a" "RAW")
      = (int_response 1,
         { ctxEmpty with store := [("a", ⟨Value.Str "1", none⟩)] }, ["RAW"])
    ∧ execute_command 0 ctxEmpty (Command.ListPush "l" ["x"] false "RAW2")
      = (int_response 1,
         { ctxEmpty with store := [("l", ⟨Value.ListV ["x"], none⟩)] }, ["RAW2"]) :=
  ⟨(C3_raw_bytes 0 ctxEmpty "a" "1" "RAW" ["x"] "s" "1-1" ("k", "v") 0 "m"
      ⟨0, 0⟩).2.2.2.1 1 [("a", ⟨Value.Str "1", none⟩)] rfl (by decide),
   (C3_raw_bytes 0 ctxEmpty "l" "1" "RAW2" ["x"] "s" "1-1" ("k", "v") 0 "m"
      ⟨0, 0⟩).2.2.2.2.2.2.1 false 1 [("l", ⟨Value.ListV ["x"], none⟩)] rfl⟩

/-- A context whose store maps "a" to the string "-1". -/
def ctxNegOne : ServerContext := ⟨[("a", ⟨Value.Str "-1", none⟩)], [], "master", 0, [], []⟩

/-- C6 counterexample.  The claim says INCR returns an integer response
equal to the new stored value whenever the stored value parses as a signed
64-bit integer.  A stored "-1" parses, increments to 0, and the executor's
`0 => error` sentinel (context.rs line 84) turns that legitimate zero into
an error response — while the store was still updated to "0". -/
theorem C6_counterexample :
    parseI64 "-1" = some (-1)
    ∧ execute_command 0 ctxNegOne (Command.Incr "a" "raw")
      = (error_response "value is not an integer or out of range",
         { ctxNegOne with store := [("a", ⟨Value.Str "0", none⟩)] }, []) :=
  ⟨rfl, rfl⟩

/-- C6 (amended).  INCR answers the integer response `n+1` when the stored
value parses as i64 to `n` with `n+1 ≠ 0` (propagating its raw bytes), `1`
on an absent key; it answers an error exactly when `incr` returns the zero
sentinel — which happens both when the stored value does not parse as i64
(store unchanged) and when a stored "-1" is legitimately incremented to 0
(store updated, nothing propagated). -/
theorem C6_incr (now : Nat) (ctx : ServerContext) (k raw : String) :
    (Store.lookup ctx.store k = none →
      execute_command now ctx (Command.Incr k raw)
        = (int_response 1,
           { ctx with store := Store.insert ctx.store k ⟨Value.Str "1", none⟩ },
           [raw]))
    ∧ (∀ s exp, Store.lookup ctx.store k = some ⟨Value.Str s, exp⟩ →
        parseI64 s = none →
        execute_command now ctx (Command.Incr k raw)
          = (error_response "value is not an integer or out of range", ctx, []))
    ∧ (∀ s exp n, Store.lookup ctx.store k = some ⟨Value.Str s, exp⟩ →
        parseI64 s = some n → n + 1 ≠ 0 →
        execute_command now ctx (Command.Incr k raw)
          = (int_response (n + 1),
             { ctx with store := Store.insert ctx.store k ⟨Value.Str (toString (n + 1)), exp⟩ },
             [raw]))
    ∧ (∀ s exp, Store.lookup ctx.store k = some ⟨Value.Str s, exp⟩ →
        parseI64 s = some (-1) →
        execute_command now ctx (Command.Incr k raw)
          = (error_response "value is not an integer or out of range",
             { ctx with store := Store.insert ctx.store k ⟨Value.Str (toString (0 : Int)), exp⟩ },
             [])) := by
  refine ⟨?_, ?_, ?_, ?_⟩
  · intro h
    simp [execute_command, Store.incr, h]
  · intro s exp hl hp
    simp [execute_command, Store.incr, hl, hp]
  · intro s exp n hl hp hne
    simp [execute_command, Store.incr, hl, hp, hne]
  · intro s exp hl hp
    simp [execute_command, Store.incr, hl, hp]

/-- C6 witness: INCR of an absent key answers `:1` and propagates; INCR of a
stored "-1" answers the error and does not propagate. -/
theorem C6_incr_witness :
    execute_command 0 ctxEmpty (Command.Incr "f" "RAWI")
      = (int_response 1,
         { ctxEmpty with store := Store.insert ctxEmpty.store "f" ⟨Value.Str "1", none⟩ },
         ["RAWI"])
    ∧ execute_command 0 ctxNegOne (Command.Incr "a" "RAWI")
      = (error_response "value is not an integer or out of range",
         { ctxNegOne with store := Store.insert ctxNegOne.store "a" ⟨Value.Str (toString (0 : Int)), none⟩ },
         []) :=
  ⟨(C6_incr 0 ctxEmpty "f" "RAWI").1 rfl,
   (C6_incr 0 ctxNegOne "a" "RAWI").2.2.2 "-1" none rfl rfl⟩

theorem filterMap_bstr (l : List String) :
    (l.map Data.BStr).filterMap
      (fun d => match d with | Data.BStr s => some s | _ => none) = l := by
  induction l with
  | nil => rfl
  | cons x xs ih =>
    simp only [List.map_cons, List.filterMap_cons]
    show x :: (xs.map Data.BStr).filterMap _ = x :: xs
    rw [ih]

/-- C7 counterexample.  The claim says the parsed BLPOP timeout equals `t`
multiplied by 1000, truncated to an integer.  The source computes
`t.parse::<f64>().unwrap() * 1000f64` and casts `as u64`: at t = "1.001"
the IEEE product is 1000.9999999999999, so the cast yields 1000 — one below
the exact ⌊1.001 × 1000⌋ = 1001. -/
theorem C7_counterexample :
    commandFrom 0 [Data.BStr "BLPOP", Data.BStr "l", Data.BStr "1.001"]
      = some (Command.BLPop ["l"] 1000)
    ∧ ((1001 : ℚ) / 1000) * 1000 = 1001
    ∧ (1000 : Nat) ≠ 1001 := by
  refine ⟨rfl, by norm_num, by decide⟩

/-- C7 (amended).  For every BLPOP whose last argument is a numeric string
`t`, the preceding arguments become the key list in order, and the timeout
field is the IEEE-binary64 product of t's parsed value with 1000, truncated
toward zero with saturation (negative values collapse to 0, the wait-forever
marker).  This agrees with ⌊t · 1000⌋ at, e.g., t = 2 (2000 ms), t = 0.5
(500 ms) and t = 0 (0, passed through to mean wait indefinitely), but not
everywhere: t = 1.001 yields 1000, not 1001. -/
theorem C7_blpop_parse (now : Nat) (keys : List String) (t : String) (x : F64)
    (hn : is_number t = true) (hp : parseF64Bits t = some x) :
    commandFrom now (Data.BStr "BLPOP" :: (keys.map Data.BStr ++ [Data.BStr t]))
      = some (Command.BLPop keys (f64BitsAsU64 (f64Mul1000 x)))
    ∧ commandFrom now [Data.BStr "BLPOP", Data.BStr "q", Data.BStr "2"]
      = some (Command.BLPop ["q"] 2000)
    ∧ commandFrom now [Data.BStr "BLPOP", Data.BStr "q", Data.BStr "0.5"]
      = some (Command.BLPop ["q"] 500)
    ∧ commandFrom now [Data.BStr "BLPOP", Data.BStr "q", Data.BStr "0"]
      = some (Command.BLPop ["q"] 0) := by
  refine ⟨?_, rfl, rfl, rfl⟩
  show parse_blpop (keys.map Data.BStr ++ [Data.BStr t])
      = some (Command.BLPop keys (f64BitsAsU64 (f64Mul1000 x)))
  unfold parse_blpop
  rw [if_neg (by simp)]
  have hlast : (keys.map Data.BStr ++ [Data.BStr t]).getLast? = some (Data.BStr t) := by
    rw [List.getLast?_concat]
  have htake : (keys.map Data.BStr ++ [Data.BStr t]).length - 1
      = (keys.map Data.BStr).length := by
    simp
  rw [hlast, htake, List.take_left, filterMap_bstr]
  show (if is_number t = true then
      match parseF64Bits t with
      | none => none
      | some x => some (Command.BLPop keys (f64BitsAsU64 (f64Mul1000 x)))
    else some Command.Invalid)
    = some (Command.BLPop keys (f64BitsAsU64 (f64Mul1000 x)))
  rw [if_pos hn, hp]

/-- C7 witness: `BLPOP a b 2` parses to the keys [a, b] in order, and the
IEEE pipeline yields exactly 2000 ms there. -/
theorem C7_blpop_parse_witness :
    commandFrom 0 (Data.BStr "BLPOP" :: (["a", "b"].map Data.BStr ++ [Data.BStr "2"]))
      = some (Command.BLPop ["a", "b"] (f64BitsAsU64 (f64Mul1000 ⟨false, roundPosF64 2 1⟩)))
    ∧ f64BitsAsU64 (f64Mul1000 ⟨false, roundPosF64 2 1⟩) = 2000 :=
  ⟨(C7_blpop_parse 0 ["a", "b"] "2" ⟨false, roundPosF64 2 1⟩ rfl rfl).1, rfl⟩

/-- C8.  GEOADD with an out-of-range point (latitude beyond ±85.05112878 or
longitude beyond ±180) answers the descriptive error and leaves the context
— in particular the underlying sorted set — untouched; with an in-range
point it performs the geoadd (geohash score, zadd) and answers an integer
response.  Nothing is propagated either way. -/
theorem C8_geoadd (now : Nat) (ctx : ServerContext) (k : String) (p : Point)
    (m : String) :
    ((p.lat < -maxLatitude ∨ maxLatitude < p.lat
        ∨ p.long < -(180 : ℚ) ∨ (180 : ℚ) < p.long) →
      execute_command now ctx (Command.Geoadd k p m)
        = (error_response "invalid longitude,latitude pair", ctx, []))
    ∧ (-maxLatitude ≤ p.lat → p.lat ≤ maxLatitude →
       -(180 : ℚ) ≤ p.long → p.long ≤ (180 : ℚ) →
        execute_command now ctx (Command.Geoadd k p m)
          = (int_response (Store.geoadd ctx.store k p m).1,
             { ctx with store := (Store.geoadd ctx.store k p m).2 }, [])) := by
  constructor
  · intro h
    have hv : validate_coords p = some "invalid longitude,latitude pair" := by
      unfold validate_coords
      rw [if_pos h]
    simp only [execute_command, hv]
  · intro h1 h2 h3 h4
    have hv : validate_coords p = none := by
      unfold validate_coords
      rw [if_neg]
      simp only [not_or]
      exact ⟨not_lt.mpr h1, not_lt.mpr h2, not_lt.mpr h3, not_lt.mpr h4⟩
    simp only [execute_command, hv]

/-- The example point of §8: San Francisco. -/
def sfPoint : Point := ⟨(377749 : ℚ) / 10000, -(1224194 : ℚ) / 10000⟩

/-- C8 witness: GEOADD of San Francisco into a fresh store performs the
zadd (a new member: the result is 1); GEOADD at latitude 86 errors and the
context is unchanged. -/
theorem C8_geoadd_witness :
    execute_command 0 ctxEmpty (Command.Geoadd "g" sfPoint "sf")
      = (int_response (Store.geoadd ctxEmpty.store "g" sfPoint "sf").1,
         { ctxEmpty with store := (Store.geoadd ctxEmpty.store "g" sfPoint "sf").2 },
         [])
    ∧ (Store.geoadd ctxEmpty.store "g" sfPoint "sf").1 = 1
    ∧ execute_command 0 ctxEmpty (Command.Geoadd "g" ⟨86, 0⟩ "bad")
      = (error_response "invalid longitude,latitude pair", ctxEmpty, []) :=
  ⟨(C8_geoadd 0 ctxEmpty "g" sfPoint "sf").2
      (by norm_num [sfPoint, maxLatitude]) (by norm_num [sfPoint, maxLatitude])
      (by norm_num [sfPoint]) (by norm_num [sfPoint]),
   rfl,
   (C8_geoadd 0 ctxEmpty "g" ⟨86, 0⟩ "bad").1
      (Or.inr (Or.inl (by norm_num [maxLatitude])))⟩

/-- A context whose store maps "l" to the list [a, b, c]. -/
def ctxList : ServerContext :=
  ⟨[("l", ⟨Value.ListV ["a", "b", "c"], none⟩)], [], "master", 0, [], []⟩

/-- C9.  LPOP with count `c` answers null when the key is absent (context
unchanged); on a list it removes the first `c` elements and returns them —
as an array when their number differs from 1, as a bulk string when exactly
one — leaving the remainder stored.  In particular, after `RPUSH l a b c`,
`LPOP l 2` answers the two-element array [a, b]. -/
theorem C9_lpop (now : Nat) (ctx : ServerContext) (k : String) (c : Nat)
    (raw : String) :
    (Store.lookup ctx.store k = none →
      execute_command now ctx (Command.LPop k c) = (null_response, ctx, []))
    ∧ (∀ l exp, Store.lookup ctx.store k = some ⟨Value.ListV l, exp⟩ →
        (l.take c).length ≠ 1 →
        execute_command now ctx (Command.LPop k c)
          = (array_response (l.take c),
             { ctx with store := Store.insert ctx.store k ⟨Value.ListV (l.drop c), exp⟩ }, []))
    ∧ (∀ l exp, Store.lookup ctx.store k = some ⟨Value.ListV l, exp⟩ →
        (l.take c).length = 1 →
        execute_command now ctx (Command.LPop k c)
          = (bstring_response ((l.take c).headD ""),
             { ctx with store := Store.insert ctx.store k ⟨Value.ListV (l.drop c), exp⟩ }, []))
    ∧ (execSeq now ctxEmpty
         [Command.ListPush "l" ["a", "b", "c"] false raw, Command.LPop "l" 2]).1
        = [int_response 3, array_response ["a", "b"]] := by
  refine ⟨?_, ?_, ?_, rfl⟩
  · intro h
    simp [execute_command, Store.list_pop, h]
  · intro l exp hl hne
    have hne2 : ¬(c ⊓ l.length = 1) := by simpa using hne
    simp [execute_command, Store.list_pop, hl, hne2]
  · intro l exp hl hone
    simp [execute_command, Store.list_pop, hl, hone]

/-- C9 witness: LPOP of an absent key answers null; LPOP with count 2 on
the stored list [a, b, c] answers the array [a, b] and leaves [c]. -/
theorem C9_lpop_witness :
    execute_command 0 ctxEmpty (Command.LPop "nope" 2) = (null_response, ctxEmpty, [])
    ∧ execute_command 0 ctxList (Command.LPop "l" 2)
      = (array_response ["a", "b"],
         { ctxList with store := Store.insert ctxList.store "l" ⟨Value.ListV ["c"], none⟩ }, []) :=
  ⟨(C9_lpop 0 ctxEmpty "nope" 2 "raw").1 rfl,
   (C9_lpop 0 ctxList "l" 2 "raw").2.1 ["a", "b", "c"] none rfl (by decide)⟩

end Redis
